import Mathlib

/-!
Verification of the FinTrack-Pro core: date normalization (`src/utils/dateUtils.ts`),
the recurring-transaction materializer (`processRecurringTransactions` in the storage
service), the investment position aggregator and valuation helpers (the `portfolio`
memo and `AssetGroup` component of `Investments`), the historical chart reconstruction
(`generateChartData`), and the category add operation (`CategoryManager.handleAdd`).

Modelling conventions for the shallow embedding of the TypeScript source:
* JavaScript numbers are modelled as `ℚ` (`Rat`); the claims under study use values
  on which IEEE-754 arithmetic is exact.
* A JavaScript `Date` object is modelled as `Option CalDate`: `none` is the
  `Invalid Date` (NaN) value, `some d` a normalized calendar date at day resolution
  (the system never uses time-of-day).
* Ambient effects are made explicit: `new Date()` inside the materializer becomes an
  explicit `today : CalDate` argument and `generateId()` (a `Math.random()`-based id)
  becomes an explicit stream `ids : Nat → String` of fresh ids, consumed in call order.
* Division on `ℚ` is total with `x / 0 = 0`; the source only divides after an explicit
  positivity guard on every path a theorem below touches.
-/

/-! ### Decimal digit strings (JS `Number(...)`, `n.toString()`, `padStart`) -/

/-- A decimal digit character, i.e. what `\d` matches in the source's date regexes. -/
def isDigitChar (c : Char) : Bool := 48 ≤ c.toNat && c.toNat ≤ 57

/-- Numeric value of a digit character (`'0'` ↦ 0, …, `'9'` ↦ 9). -/
def digitVal (c : Char) : Nat := c.toNat - 48

/-- Decimal digits with explicit recursion fuel (`n` itself bounds the number of
divisions by 10), kept structurally recursive so concrete dates evaluate inside the
kernel. -/
def natToDigitsAux : Nat → Nat → List Char
  | 0, _ => []
  | fuel + 1, n =>
    if n < 10 then [Nat.digitChar n]
    else natToDigitsAux fuel (n / 10) ++ [Nat.digitChar (n % 10)]

/-- Decimal digits of `n`, most significant first; models JS `n.toString()` for a
nonnegative integer. -/
def natToDigits (n : Nat) : List Char := natToDigitsAux (n + 1) n

/-- JS `n.toString()` for a nonnegative integer. -/
def natToString (n : Nat) : String := ⟨natToDigits n⟩

/-- JS `${i}` / `i.toString()` for an integer. -/
def intToString (i : Int) : String :=
  if i < 0 then ⟨'-' :: natToDigits i.natAbs⟩ else natToString i.toNat

/-- Value of a list of digit characters read in base 10; models JS `Number(s)` on an
all-digit string (leading zeros allowed, as in `Number("05") = 5`). -/
def digitsToNat (cs : List Char) : Nat :=
  cs.foldl (fun acc c => acc * 10 + digitVal c) 0

/-- JS `Number(s)` restricted to the shapes the date parser feeds it: a nonempty run
of decimal digits yields its value, anything else yields NaN (modelled as `none`;
forms such as signed or fractional numerals never arise from the two date encodings). -/
def jsNumber (cs : List Char) : Option Int :=
  if !cs.isEmpty && cs.all isDigitChar then some (digitsToNat cs : Int) else none

/-- JS `s.padStart(2, '0')`, as used by `pad` in `dateUtils.ts`. -/
def padStart2 (s : String) : String :=
  ⟨List.replicate (2 - s.data.length) '0' ++ s.data⟩

/-- `pad` from `dateUtils.ts`: `n.toString().padStart(2, '0')`. -/
def pad (n : Nat) : String := padStart2 (natToString n)

/-! ### Calendar dates (JS `Date` at day resolution) -/

/-- A normalized calendar date, mirroring the observable day-resolution state of a
valid JS `Date`: `year` as `getFullYear()`, `month` as the 0-based `getMonth()`,
`day` as `getDate()`. -/
structure CalDate where
  year : Int
  month : Nat
  day : Nat
  deriving Repr, DecidableEq

/-- Leap-year test of the Gregorian calendar, as JS `Date` uses. -/
def isLeapYear (y : Int) : Bool := (y % 4 == 0 && y % 100 != 0) || y % 400 == 0

/-- Number of days of 0-based `month` of year `y`; months ≥ 12 cannot occur in a
normalized date and default to 31. -/
def daysInMonth (y : Int) (month : Nat) : Nat :=
  match month with
  | 0 => 31 | 1 => if isLeapYear y then 29 else 28 | 2 => 31 | 3 => 30
  | 4 => 31 | 5 => 30 | 6 => 31 | 7 => 31 | 8 => 30 | 9 => 31 | 10 => 30
  | _ => 31

/-- Days since 1970-01-01 of the date with 0-based month `m` (Gregorian civil
calendar, Hinnant's `days_from_civil`); the day-resolution core of JS `getTime()`. -/
def daysFromCivil (y : Int) (m : Nat) (d : Int) : Int :=
  let m1 : Int := (m : Int) + 1
  let y' := if m1 ≤ 2 then y - 1 else y
  let era := y'.fdiv 400
  let yoe := y' - era * 400
  let doy := (153 * (if 2 < m1 then m1 - 3 else m1 + 9) + 2).fdiv 5 + d - 1
  let doe := yoe * 365 + yoe.fdiv 4 - yoe.fdiv 100 + doy
  era * 146097 + doe - 719468

/-- Inverse of `daysFromCivil` (Hinnant's `civil_from_days`): the normalized calendar
date lying `z0` days after 1970-01-01. -/
def civilFromDays (z0 : Int) : CalDate :=
  let z := z0 + 719468
  let era := z.fdiv 146097
  let doe := z - era * 146097
  let yoe := (doe - doe.fdiv 1460 + doe.fdiv 36524 - doe.fdiv 146096).fdiv 365
  let y := yoe + era * 400
  let doy := doe - (365 * yoe + yoe.fdiv 4 - yoe.fdiv 100)
  let mp := (5 * doy + 2).fdiv 153
  let d := doy - (153 * mp + 2).fdiv 5 + 1
  let m1 := if mp < 10 then mp + 3 else mp - 9
  ⟨if m1 ≤ 2 then y + 1 else y, (m1 - 1).toNat, d.toNat⟩

/-- JS `new Date(year, month, day)` at day resolution: two-digit years map to
1900–1999, the month is folded into the year with floor division, and an
out-of-range day is normalized by day arithmetic (e.g. day 0 is the last day of the
previous month). The in-range case is returned directly; it agrees with the day
arithmetic of the general case. -/
def jsDate (year month day : Int) : CalDate :=
  let y0 := if 0 ≤ year ∧ year ≤ 99 then year + 1900 else year
  let y1 := y0 + month.fdiv 12
  let m1 := (month % 12).toNat
  if 1 ≤ day ∧ day ≤ (daysInMonth y1 m1 : Int) then ⟨y1, m1, day.toNat⟩
  else civilFromDays (daysFromCivil y1 m1 1 + day - 1)

/-- JS `date.getTime()` for a (valid) day-resolution date: milliseconds since epoch. -/
def getTime (d : CalDate) : Int := daysFromCivil d.year d.month d.day * 86400000

/-- A calendar date `new Date()` can actually deliver (and the fixed-width encodings
can carry): in-range components and a four-digit year. -/
def isValidToday (t : CalDate) : Prop :=
  1000 ≤ t.year ∧ t.year ≤ 9999 ∧ t.month < 12 ∧ 1 ≤ t.day ∧
    t.day ≤ daysInMonth t.year t.month

instance (t : CalDate) : Decidable (isValidToday t) := by
  unfold isValidToday
  infer_instance

/-! ### `dateUtils.ts` -/

/-- The `^\d{2}-\d{2}-\d{4}$` test of `parseToDate`. -/
def ddmmyyyyTest (s : String) : Bool :=
  match s.data with
  | [a, b, c, d, e, f, g, h, i, j] =>
    isDigitChar a && isDigitChar b && (c == '-') && isDigitChar d && isDigitChar e &&
    (f == '-') && isDigitChar g && isDigitChar h && isDigitChar i && isDigitChar j
  | _ => false

/-- The `^\d{4}-\d{2}-\d{2}` prefix test of `parseToDate`. -/
def isoTest (s : String) : Bool :=
  match s.data with
  | a :: b :: c :: d :: e :: f :: g :: h :: i :: j :: _ =>
    isDigitChar a && isDigitChar b && isDigitChar c && isDigitChar d && (e == '-') &&
    isDigitChar f && isDigitChar g && (h == '-') && isDigitChar i && isDigitChar j
  | _ => false

/-- JS `s.split('-')` on the character list of `s`. -/
def splitDash : List Char → List (List Char)
  | [] => [[]]
  | c :: rest =>
    if c = '-' then [] :: splitDash rest
    else
      match splitDash rest with
      | [] => [[c]]
      | g :: gs => (c :: g) :: gs

/-- JS `s.split('T')[0]` on the character list of `s`. -/
def takeUntilT (cs : List Char) : List Char := cs.takeWhile (fun c => c != 'T')

/-- The generic `new Date(dateStr)` fallback of `parseToDate` for strings matching
neither date pattern. Its behaviour is host-defined in JS; it is modelled as the
Invalid Date sentinel, and no theorem below depends on this branch. -/
def jsGenericParseDate (_dateStr : String) : Option CalDate := none

/-- `parseToDate` from `dateUtils.ts`: parse `DD-MM-YYYY`, else ISO `YYYY-MM-DD`
(with optional `T…` suffix), else fall back to the generic parse; an empty string is
`new Date(NaN)`. A NaN component makes the constructed `Date` invalid (`none`). -/
def parseToDate (dateStr : String) : Option CalDate :=
  if dateStr = "" then none
  else if ddmmyyyyTest dateStr then
    match (splitDash dateStr.data).map jsNumber with
    | some d :: some m :: some y :: _ => some (jsDate y (m - 1) d)
    | _ => none
  else if isoTest dateStr then
    match (splitDash (takeUntilT dateStr.data)).map jsNumber with
    | some y :: some m :: some d :: _ => some (jsDate y (m - 1) d)
    | _ => none
  else jsGenericParseDate dateStr

/-- `formatDateToDDMMYYYY` from `dateUtils.ts`; a null or invalid date renders as `""`. -/
def formatDateToDDMMYYYY (date : Option CalDate) : String :=
  match date with
  | none => ""
  | some d => pad d.day ++ "-" ++ pad (d.month + 1) ++ "-" ++ intToString d.year

/-- `ddmmyyyyToISO` from `dateUtils.ts`: swap a three-part hyphenated date to
`YYYY-MM-DD`; other inputs pass through (`""` for the empty string). -/
def ddmmyyyyToISO (s : String) : String :=
  if s = "" then ""
  else
    match splitDash s.data with
    | [d, m, y] => ⟨y ++ '-' :: (m ++ '-' :: d)⟩
    | _ => s

/-! ### The transaction ledger and the Recurrence Materializer (`storageService`) -/

/-- The `TransactionType` enum of `types.ts`. -/
inductive TransactionType
  | INCOME
  | EXPENSE
  deriving Repr, DecidableEq

/-- The `Transaction` ledger entry of `types.ts`; `date` is a `DD-MM-YYYY` string. -/
structure Transaction where
  id : String
  date : String
  amount : ℚ
  type : TransactionType
  category : String
  description : String
  isRecurring : Bool
  deriving Repr, DecidableEq

/-- The `RecurringConfig` of `types.ts` (the spec's RecurringDefinition). -/
structure RecurringConfig where
  id : String
  type : TransactionType
  category : String
  description : String
  amount : ℚ
  dayOfMonth : Nat
  lastProcessedDate : Option String
  active : Bool
  deriving Repr, DecidableEq

/-- Modelled from the spec: the localized "(recurring)" marker appended to a
materialized transaction's description (`TRANSLATIONS.recurring`); the constants
module defining `TRANSLATIONS` is not among the provided sources. No claim below
depends on this string's value. -/
def recurringMarker : String := "recurring"

/-- The `shouldAdd` decision of `processRecurringTransactions` for one definition:
due when today's day-of-month has reached `dayOfMonth` and `lastProcessedDate` is
absent or lies outside today's (month, year). An unparsable `lastProcessedDate`
yields an Invalid Date whose NaN month and year compare unequal to every number, so
only the day test remains. -/
def recurringShouldAdd (today : CalDate) (config : RecurringConfig) : Bool :=
  match config.lastProcessedDate with
  | none => decide (config.dayOfMonth ≤ today.day)
  | some lp =>
    match parseToDate lp with
    | some lastDate =>
      (!(lastDate.month == today.month) || !(lastDate.year == today.year)) &&
      decide (config.dayOfMonth ≤ today.day)
    | none => decide (config.dayOfMonth ≤ today.day)

/-- One iteration of the `newRecurring.map` body of `processRecurringTransactions`:
the (possibly updated) definition, and the materialized transaction if one is due.
`newId` is the `generateId()` result for this iteration. -/
def processOneConfig (today : CalDate) (newId : String) (config : RecurringConfig) :
    RecurringConfig × Option Transaction :=
  if !config.active then (config, none)
  else if recurringShouldAdd today config then
    let dateObj := jsDate today.year (today.month : Int) (config.dayOfMonth : Int)
    let newDateStr := formatDateToDDMMYYYY (some dateObj)
    let newTx : Transaction :=
      { id := newId
        date := newDateStr
        amount := config.amount
        type := config.type
        category := config.category
        description := config.description ++ " (" ++ recurringMarker ++ ")"
        isRecurring := true }
    ({ config with lastProcessedDate := some newTx.date }, some newTx)
  else (config, none)

/-- The result record of `processRecurringTransactions`. -/
structure ProcessResult where
  updatedTransactions : List Transaction
  updatedRecurring : List RecurringConfig
  addedCount : Nat
  deriving Repr, DecidableEq

/-- Folds the definitions left to right, as `newRecurring.map` does, collecting the
transactions pushed onto `newTransactions` and counting `addedCount`. `k` is the
number of `generateId()` calls made so far, indexing the id stream. -/
def processRecAux (today : CalDate) (ids : Nat → String) :
    Nat → List RecurringConfig → List Transaction × List RecurringConfig × Nat
  | _, [] => ([], [], 0)
  | k, config :: rest =>
    match processOneConfig today (ids k) config with
    | (cfg, none) =>
      let (txs, cfgs, added) := processRecAux today ids k rest
      (txs, cfg :: cfgs, added)
    | (cfg, some tx) =>
      let (txs, cfgs, added) := processRecAux today ids (k + 1) rest
      (tx :: txs, cfg :: cfgs, added + 1)

/-- `processRecurringTransactions` from the storage service, with the two ambient
effects made explicit: `today` stands for the `new Date()` read and `ids` for the
successive `generateId()` (`Math.random()`-based) results. -/
def processRecurringTransactions (transactions : List Transaction)
    (recurring : List RecurringConfig) (today : CalDate) (ids : Nat → String) :
    ProcessResult :=
  let (newTxs, newRecurring, addedCount) := processRecAux today ids 0 recurring
  ⟨transactions ++ newTxs, newRecurring, addedCount⟩

/-- Blanks out a transaction's generated id, for stating what of the materializer's
output does not depend on the id stream. -/
def eraseId (tx : Transaction) : Transaction := { tx with id := "" }

/-! ### Category lists (`CategoryManager`) -/

/-- The `CategoryData` of `types.ts`: ordered income and expense label lists. -/
structure CategoryData where
  income : List String
  expense : List String
  deriving Repr, DecidableEq

/-- Observable outcome of `CategoryManager.handleAdd`: a blank input is ignored, a
duplicate reports the named `categoryExists` failure without emitting an update, and
otherwise the updated `CategoryData` is emitted via `onUpdate`. -/
inductive AddResult
  | ignored
  | categoryExists
  | updated (categories : CategoryData)
  deriving Repr, DecidableEq

/-- The `currentList` selector of `CategoryManager`. -/
def currentCategoryList (categories : CategoryData) (activeTab : TransactionType) :
    List String :=
  if activeTab = TransactionType.INCOME then categories.income else categories.expense

/-- JS `String.prototype.trim`: strip leading and trailing whitespace. -/
def jsTrim (s : String) : String :=
  ⟨((s.data.dropWhile Char.isWhitespace).reverse.dropWhile Char.isWhitespace).reverse⟩

/-- `CategoryManager.handleAdd` as a function of the component's inputs. -/
def handleAdd (categories : CategoryData) (activeTab : TransactionType)
    (newCategory : String) : AddResult :=
  if jsTrim newCategory = "" then AddResult.ignored
  else if jsTrim newCategory ∈ currentCategoryList categories activeTab then
    AddResult.categoryExists
  else
    let updatedList := currentCategoryList categories activeTab ++ [jsTrim newCategory]
    AddResult.updated
      (if activeTab = TransactionType.INCOME then { categories with income := updatedList }
       else { categories with expense := updatedList })

/-! ### The Position Aggregator (`Investments.portfolio`) -/

/-- The `'BUY' | 'SELL'` event type of `InvestmentTransaction`. -/
inductive InvType
  | BUY
  | SELL
  deriving Repr, DecidableEq

/-- The `'USD' | 'ILS'` currency tag of `InvestmentTransaction`. -/
inductive Currency
  | USD
  | ILS
  deriving Repr, DecidableEq

/-- The `AssetType` enum of `types.ts`. -/
inductive AssetType
  | STOCK
  | REAL_ESTATE
  | CRYPTO
  | OTHER
  deriving Repr, DecidableEq

/-- The `InvestmentTransaction` of `types.ts` (the optional `fees` field is captured
by the type but read nowhere in the aggregation logic and is omitted). -/
structure InvestmentTransaction where
  id : String
  symbol : String
  name : Option String
  type : InvType
  assetType : AssetType
  quantity : ℚ
  pricePerUnit : ℚ
  currency : Currency
  date : String
  deriving Repr, DecidableEq

/-- The derived `GroupedAsset` of `Investments.tsx`; all money fields are in USD. -/
structure GroupedAsset where
  symbol : String
  name : Option String
  assetType : AssetType
  quantity : ℚ
  avgBuyPrice : ℚ
  totalInvested : ℚ
  currentPrice : Option ℚ
  transactions : List InvestmentTransaction
  deriving Repr, DecidableEq

/-- The `priceInUSD` normalization of the `portfolio` fold: a USD price is taken
as-is, an ILS price is divided by the exchange rate. -/
def normalizePriceUSD (exchangeRate : ℚ) (tx : InvestmentTransaction) : ℚ :=
  if tx.currency = Currency.USD then tx.pricePerUnit else tx.pricePerUnit / exchangeRate

/-- The body of the `sortedInvestments.forEach` fold of `Investments.portfolio`,
applied to the group the transaction's symbol selects: the transaction is appended
to the group's audit list, then a BUY re-weights the average cost (guarded against a
zero resulting quantity) and adds to invested capital, while a SELL removes the sold
shares' cost basis and quantity, leaving the average cost untouched. -/
def applyTxToGroup (exchangeRate : ℚ) (group : GroupedAsset)
    (tx : InvestmentTransaction) : GroupedAsset :=
  let group := { group with transactions := group.transactions ++ [tx] }
  let priceInUSD := normalizePriceUSD exchangeRate tx
  if tx.type = InvType.BUY then
    let currentTotalValueUSD := group.quantity * group.avgBuyPrice
    let newTxValueUSD := tx.quantity * priceInUSD
    let totalQty := group.quantity + tx.quantity
    { group with
      quantity := totalQty
      avgBuyPrice :=
        if 0 < totalQty then (currentTotalValueUSD + newTxValueUSD) / totalQty
        else group.avgBuyPrice
      totalInvested := group.totalInvested + newTxValueUSD }
  else
    let costBasisSoldUSD := tx.quantity * group.avgBuyPrice
    { group with
      totalInvested := group.totalInvested - costBasisSoldUSD
      quantity := group.quantity - tx.quantity }

/-- The zero-initialized group created on a symbol's first transaction. -/
def emptyGroupFor (tx : InvestmentTransaction) : GroupedAsset :=
  { symbol := tx.symbol
    name := tx.name
    assetType := tx.assetType
    quantity := 0
    avgBuyPrice := 0
    totalInvested := 0
    currentPrice := none
    transactions := [] }

/-- Applies one transaction to the group list keyed by symbol in first-occurrence
order, as the `groups` record of `Investments.portfolio` does. -/
def insertTxIntoGroups (exchangeRate : ℚ) :
    List GroupedAsset → InvestmentTransaction → List GroupedAsset
  | [], tx => [applyTxToGroup exchangeRate (emptyGroupFor tx) tx]
  | g :: gs, tx =>
    if g.symbol = tx.symbol then applyTxToGroup exchangeRate g tx :: gs
    else g :: insertTxIntoGroups exchangeRate gs tx

/-- The sort key of `Investments.portfolio`'s date comparator,
`parseToDate(x.date).getTime()`. An unparsable date has a NaN key in JS, which the
sort comparator treats as 0; no verified claim sorts an unparsable date. -/
def dateKey (s : String) : Int :=
  match parseToDate s with
  | some d => getTime d
  | none => 0

/-- Stable insertion by a total `≤` comparator: `x` lands before the first element
it is not greater than. -/
def insertByLe {α : Type} (le : α → α → Bool) (x : α) : List α → List α
  | [] => [x]
  | y :: ys => if le x y then x :: y :: ys else y :: insertByLe le x ys

/-- JS `Array.prototype.sort` with a total `≤` comparator: a stable sort (the
language spec guarantees stability), here as stable insertion sort. -/
def stableSortBy {α : Type} (le : α → α → Bool) : List α → List α
  | [] => []
  | x :: xs => insertByLe le x (stableSortBy le xs)

/-- The current-price attachment at the end of `Investments.portfolio`; a price of 0
is falsy in JS and is not attached. -/
def attachPrice (prices : String → Option ℚ) (g : GroupedAsset) : GroupedAsset :=
  match prices g.symbol with
  | some p => if p = 0 then g else { g with currentPrice := some p }
  | none => g

/-- `Investments.portfolio`: sort the investment ledger by date (stable), fold it
into one group per symbol, and attach cached current prices. -/
def portfolio (investments : List InvestmentTransaction) (exchangeRate : ℚ)
    (prices : String → Option ℚ) : List GroupedAsset :=
  let sortedInvestments :=
    stableSortBy (fun a b => decide (dateKey a.date ≤ dateKey b.date)) investments
  let groups := sortedInvestments.foldl (insertTxIntoGroups exchangeRate) []
  groups.map (attachPrice prices)

/-! ### Valuation (`AssetGroup` in `Investments.tsx`) -/

/-- The `asset.currentPrice || asset.avgBuyPrice` fallback of `AssetGroup` (an
absent or zero price is falsy and falls back to the average cost). -/
def assetCurrentOrAvg (asset : GroupedAsset) : ℚ :=
  match asset.currentPrice with
  | some p => if p = 0 then asset.avgBuyPrice else p
  | none => asset.avgBuyPrice

/-- The per-position return percentage of `AssetGroup`:
`costBasisUSD > 0 ? (totalReturn / costBasisUSD) * 100 : 0`. -/
def assetReturnPct (asset : GroupedAsset) : ℚ :=
  let marketValueUSD := asset.quantity * assetCurrentOrAvg asset
  let costBasisUSD := asset.quantity * asset.avgBuyPrice
  let totalReturn := marketValueUSD - costBasisUSD
  if 0 < costBasisUSD then totalReturn / costBasisUSD * 100 else 0

/-! ### Historical chart reconstruction (`Investments.generateChartData`) -/

/-- The candle series of `financeService.fetchStockCandles`, reduced to the fields
`generateChartData` reads: close prices `c` and timestamps `t` (epoch seconds). The
`t` field is `Option`al because the code guards `!benchmarkData.t` against a payload
lacking it. -/
structure CandleData where
  c : List ℚ
  t : Option (List Int)
  deriving Repr, DecidableEq

/-- One element of the `historyPoints` array `generateChartData` builds. -/
structure HistoryPoint where
  date : String
  portfolioReturn : ℚ
  benchmarkReturn : ℚ
  portfolioValue : ℚ
  deriving Repr, DecidableEq

/-- `parseFloat(x.toFixed(2))`: rounding to two decimal places (exact on the
rational model). -/
def toFixed2 (x : ℚ) : ℚ := round (x * 100) / 100

/-- JS `s.padStart(4, '0')`, for the year field of `toISOString`. -/
def padStart4 (s : String) : String :=
  ⟨List.replicate (4 - s.data.length) '0' ++ s.data⟩

/-- `date.toISOString().split('T')[0]` for a day-resolution date. -/
def isoDateString (d : CalDate) : String :=
  padStart4 (intToString d.year) ++ "-" ++ pad (d.month + 1) ++ "-" ++ pad d.day

/-- The per-symbol price lookup of the chart loop:
`candles.c[index] || (index > 0 ? candles.c[index - 1] : 0)` (a missing entry reads
as `undefined`, which like 0 is falsy and is never multiplied into the total because
of the `price > 0` guard, so it is modelled as 0). -/
def candlePriceAt (candles : CandleData) (index : Nat) : ℚ :=
  let cur := (candles.c.get? index).getD 0
  if cur ≠ 0 then cur
  else if 0 < index then (candles.c.get? (index - 1)).getD 0
  else 0

/-- The chart loop's holdings reconstruction for one symbol: signed quantity of all
of the symbol's transactions dated at or before the timestamp (milliseconds `tms`);
a transaction whose date fails to parse has a NaN time and never satisfies `≤`. -/
def quantityHeldAt (investments : List InvestmentTransaction) (sym : String)
    (tms : Int) : ℚ :=
  (investments.filter (fun i =>
      i.symbol == sym &&
      match parseToDate i.date with
      | some d => decide (getTime d ≤ tms)
      | none => false)).foldl
    (fun acc curr => if curr.type = InvType.BUY then acc + curr.quantity else acc - curr.quantity) 0

/-- The chart loop's net invested capital at a timestamp: BUY adds and SELL removes
`quantity * pricePerUnit`, ILS amounts scaled by `1 / exchangeRate`. -/
def investedCapitalAt (investments : List InvestmentTransaction) (exchangeRate : ℚ)
    (tms : Int) : ℚ :=
  (investments.filter (fun i =>
      match parseToDate i.date with
      | some d => decide (getTime d ≤ tms)
      | none => false)).foldl
    (fun acc tx =>
      let val := tx.quantity * tx.pricePerUnit *
        (if tx.currency = Currency.ILS then 1 / exchangeRate else 1)
      if tx.type = InvType.BUY then acc + val else acc - val) 0

/-- The body of the `timestamps.forEach` loop of `generateChartData`, producing the
history point for timestamp `ts` (epoch seconds) at position `index` of the
benchmark's series. -/
def historyPointAt (investments : List InvestmentTransaction)
    (uniqueSymbols : List String) (stockDataMap : String → Option CandleData)
    (benchmarkData : CandleData) (exchangeRate : ℚ) (index : Nat) (ts : Int) :
    HistoryPoint :=
  let date := civilFromDays ((ts * 1000).fdiv 86400000)
  let tms := ts * 1000
  let dateStr := isoDateString date
  let portfolioValue := uniqueSymbols.foldl
    (fun acc sym =>
      let price := match stockDataMap sym with
        | some candles => candlePriceAt candles index
        | none => 0
      let qty := quantityHeldAt investments sym tms
      if 0 < qty ∧ 0 < price then acc + qty * price else acc) 0
  let totalInvested := investedCapitalAt investments exchangeRate tms
  let portfolioReturn :=
    if 0 < totalInvested then (portfolioValue - totalInvested) / totalInvested * 100 else 0
  let benchmarkStartPrice := (benchmarkData.c.get? 0).getD 0
  let benchmarkReturn :=
    ((benchmarkData.c.get? index).getD 0 - benchmarkStartPrice) / benchmarkStartPrice * 100
  ⟨dateStr, toFixed2 portfolioReturn, toFixed2 benchmarkReturn, toFixed2 portfolioValue⟩

/-- The pure state transition of `generateChartData` once the fetches have resolved:
`prevChart` is the `chartData` state before the call. When the benchmark fetch
returned `null`, or a payload with no `t` array, the function returns early and the
state is left untouched; otherwise every benchmark timestamp yields one point (an
empty timestamp array thus yields the empty chart). -/
def generateChartDataStep (prevChart : List HistoryPoint)
    (investments : List InvestmentTransaction) (uniqueSymbols : List String)
    (stockDataMap : String → Option CandleData) (benchmarkData : Option CandleData)
    (exchangeRate : ℚ) : List HistoryPoint :=
  match benchmarkData with
  | none => prevChart
  | some bd =>
    match bd.t with
    | none => prevChart
    | some timestamps =>
      timestamps.enum.map (fun p =>
        historyPointAt investments uniqueSymbols stockDataMap bd exchangeRate p.1 p.2)

/-! ### Concrete fixtures for scenario theorems and witnesses -/

/-- A monthly definition due on the 15th, never processed. -/
def rentConfig : RecurringConfig :=
  { id := "r1"
    type := TransactionType.EXPENSE
    category := "Housing"
    description := "Rent"
    amount := 100
    dayOfMonth := 15
    lastProcessedDate := none
    active := true }

/-- BUY 10 units @ $100. -/
def buyTenAt100 : InvestmentTransaction :=
  { id := "i1", symbol := "AAPL", name := none, type := InvType.BUY
    assetType := AssetType.STOCK, quantity := 10, pricePerUnit := 100
    currency := Currency.USD, date := "01-01-2024" }

/-- SELL 4 units @ $150. -/
def sellFourAt150 : InvestmentTransaction :=
  { id := "i2", symbol := "AAPL", name := none, type := InvType.SELL
    assetType := AssetType.STOCK, quantity := 4, pricePerUnit := 150
    currency := Currency.USD, date := "02-01-2024" }

/-- BUY 10 units @ $200. -/
def buyTenAt200 : InvestmentTransaction :=
  { id := "i3", symbol := "AAPL", name := none, type := InvType.BUY
    assetType := AssetType.STOCK, quantity := 10, pricePerUnit := 200
    currency := Currency.USD, date := "02-01-2024" }

/-- A nonempty previously-rendered chart state. -/
def samplePoint : HistoryPoint :=
  { date := "2024-01-01", portfolioReturn := 1, benchmarkReturn := 2, portfolioValue := 3 }

/-! ### Digit-string lemmas -/

theorem digitVal_digitChar {k : Nat} (h : k < 10) : digitVal (Nat.digitChar k) = k := by
  interval_cases k <;> decide

theorem isDigitChar_digitChar {k : Nat} (h : k < 10) :
    isDigitChar (Nat.digitChar k) = true := by
  interval_cases k <;> decide

theorem digit_ne_dash {c : Char} (h : isDigitChar c = true) : c ≠ '-' := by
  intro hc
  rw [hc] at h
  exact absurd h (by decide)

theorem digit_ne_T {c : Char} (h : isDigitChar c = true) : c ≠ 'T' := by
  intro hc
  rw [hc] at h
  exact absurd h (by decide)

theorem digitsToNat_append (xs : List Char) (c : Char) :
    digitsToNat (xs ++ [c]) = digitsToNat xs * 10 + digitVal c := by
  simp [digitsToNat, List.foldl_append]

theorem natToDigitsAux_congr : ∀ (n f1 f2 : Nat), n < f1 → n < f2 →
    natToDigitsAux f1 n = natToDigitsAux f2 n := by
  intro n
  induction n using Nat.strong_induction_on with
  | _ n ih =>
    intro f1 f2 h1 h2
    obtain ⟨a, rfl⟩ : ∃ a, f1 = a + 1 := ⟨f1 - 1, by omega⟩
    obtain ⟨b, rfl⟩ : ∃ b, f2 = b + 1 := ⟨f2 - 1, by omega⟩
    by_cases h : n < 10
    · simp [natToDigitsAux, h]
    · simp only [natToDigitsAux, if_neg h]
      rw [ih (n / 10) (Nat.div_lt_self (by omega) (by omega)) a b (by omega) (by omega)]

theorem natToDigits_of_lt {n : Nat} (h : n < 10) : natToDigits n = [Nat.digitChar n] := by
  rw [natToDigits]
  simp [natToDigitsAux, h]

theorem natToDigits_of_ge {n : Nat} (h : 10 ≤ n) :
    natToDigits n = natToDigits (n / 10) ++ [Nat.digitChar (n % 10)] := by
  rw [natToDigits, natToDigits]
  simp only [natToDigitsAux, if_neg (Nat.not_lt.2 h)]
  rw [natToDigitsAux_congr (n / 10) n (n / 10 + 1) (by omega) (by omega)]
  simp [natToDigitsAux]

theorem digitsToNat_natToDigits (n : Nat) : digitsToNat (natToDigits n) = n := by
  induction n using Nat.strong_induction_on with
  | _ n ih =>
    by_cases h : n < 10
    · rw [natToDigits_of_lt h]
      simp [digitsToNat, digitVal_digitChar h]
    · rw [natToDigits_of_ge (by omega), digitsToNat_append,
        ih (n / 10) (Nat.div_lt_self (by omega) (by omega)),
        digitVal_digitChar (Nat.mod_lt _ (by omega))]
      omega

theorem natToDigits_all_digits (n : Nat) : ∀ c ∈ natToDigits n, isDigitChar c = true := by
  induction n using Nat.strong_induction_on with
  | _ n ih =>
    by_cases h : n < 10
    · rw [natToDigits_of_lt h]
      intro c hc
      rw [List.mem_singleton] at hc
      subst hc
      exact isDigitChar_digitChar h
    · rw [natToDigits_of_ge (by omega)]
      intro c hc
      rcases List.mem_append.mp hc with h1 | h1
      · exact ih (n / 10) (Nat.div_lt_self (by omega) (by omega)) c h1
      · rw [List.mem_singleton] at h1
        subst h1
        exact isDigitChar_digitChar (Nat.mod_lt _ (by omega))

theorem length_natToDigits_two {n : Nat} (h1 : 10 ≤ n) (h2 : n < 100) :
    (natToDigits n).length = 2 := by
  rw [natToDigits_of_ge h1, natToDigits_of_lt (show n / 10 < 10 by omega)]
  simp

theorem length_natToDigits_four {n : Nat} (h1 : 1000 ≤ n) (h2 : n < 10000) :
    (natToDigits n).length = 4 := by
  rw [natToDigits_of_ge (by omega : 10 ≤ n),
    natToDigits_of_ge (by omega : 10 ≤ n / 10)]
  simp [length_natToDigits_two (show 10 ≤ n / 10 / 10 by omega)
    (show n / 10 / 10 < 100 by omega)]

theorem pad_two_digits {n : Nat} (h : n < 100) :
    ∃ c1 c2, (pad n).data = [c1, c2] ∧ isDigitChar c1 = true ∧ isDigitChar c2 = true ∧
      digitsToNat [c1, c2] = n := by
  by_cases h10 : n < 10
  · refine ⟨'0', Nat.digitChar n, ?_, by decide, isDigitChar_digitChar h10, ?_⟩
    · simp [pad, padStart2, natToString, natToDigits_of_lt h10, List.replicate]
    · simp [digitsToNat, digitVal_digitChar h10]
      rfl
  · have hlen : (natToDigits n).length = 2 := length_natToDigits_two (by omega) h
    obtain ⟨c1, c2, hc⟩ := List.length_eq_two.mp hlen
    refine ⟨c1, c2, ?_, ?_, ?_, ?_⟩
    · simp [pad, padStart2, natToString, hc]
    · exact natToDigits_all_digits n c1 (by rw [hc]; simp)
    · exact natToDigits_all_digits n c2 (by rw [hc]; simp)
    · rw [← hc, digitsToNat_natToDigits]

theorem year_four_digits {y : Int} (h1 : 1000 ≤ y) (h2 : y ≤ 9999) :
    ∃ c1 c2 c3 c4, (intToString y).data = [c1, c2, c3, c4] ∧
      isDigitChar c1 = true ∧ isDigitChar c2 = true ∧ isDigitChar c3 = true ∧
      isDigitChar c4 = true ∧ digitsToNat [c1, c2, c3, c4] = y.toNat := by
  have hys : intToString y = ⟨natToDigits y.toNat⟩ := by
    rw [intToString, if_neg (by omega), natToString]
  have hlen : (natToDigits y.toNat).length = 4 :=
    length_natToDigits_four (by omega) (by omega)
  obtain ⟨c1, l3, hc1⟩ : ∃ a t, natToDigits y.toNat = a :: t ∧ t.length = 3 := by
    rcases hl : natToDigits y.toNat with _ | ⟨a, t⟩
    · rw [hl] at hlen; simp at hlen
    · exact ⟨a, t, rfl, by rw [hl] at hlen; simpa using hlen⟩
  obtain ⟨hc1eq, hl3⟩ := hc1
  obtain ⟨c2, c3, c4, hrest⟩ := List.length_eq_three.mp hl3
  have hdata : (intToString y).data = [c1, c2, c3, c4] := by
    rw [hys]
    show natToDigits y.toNat = _
    rw [hc1eq, hrest]
  have hmem : ∀ c ∈ ([c1, c2, c3, c4] : List Char), isDigitChar c = true := by
    intro c hc
    refine natToDigits_all_digits y.toNat c ?_
    rw [hc1eq, hrest]
    exact hc
  refine ⟨c1, c2, c3, c4, hdata, hmem c1 (by simp), hmem c2 (by simp),
    hmem c3 (by simp), hmem c4 (by simp), ?_⟩
  rw [show [c1, c2, c3, c4] = natToDigits y.toNat by rw [hc1eq, hrest],
    digitsToNat_natToDigits]

/-! ### `splitDash` lemmas -/

theorem splitDash_no_dash {l : List Char} (h : ∀ c ∈ l, c ≠ '-') : splitDash l = [l] := by
  induction l with
  | nil => rfl
  | cons c rest ih =>
    rw [splitDash, if_neg (h c (by simp)), ih (fun x hx => h x (by simp [hx]))]

theorem splitDash_append {a : List Char} (b : List Char) (h : ∀ c ∈ a, c ≠ '-') :
    splitDash (a ++ '-' :: b) = a :: splitDash b := by
  induction a with
  | nil => simp [splitDash]
  | cons c rest ih =>
    rw [List.cons_append, splitDash, if_neg (h c (by simp)),
      ih (fun x hx => h x (by simp [hx]))]

/-! ### Calendar lemmas -/

theorem daysInMonth_le_31 (y : Int) (m : Nat) : daysInMonth y m ≤ 31 := by
  unfold daysInMonth
  split <;> (try split) <;> omega

/-- For an in-range (year, month, day) triple, `new Date(y, m, d)` normalizes
nothing: every component is read back unchanged. -/
theorem jsDate_of_valid {y : Int} {m d : Nat} (hy : 99 < y) (hm : m < 12)
    (hd1 : 1 ≤ d) (hd2 : d ≤ daysInMonth y m) :
    jsDate y (m : Int) (d : Int) = ⟨y, m, d⟩ := by
  have hfdiv : ((m : Int)).fdiv 12 = 0 := by
    rw [Int.fdiv_eq_ediv _ (by norm_num)]
    omega
  have hmod : (((m : Int)) % 12).toNat = m := by omega
  simp only [jsDate, hfdiv, hmod, add_zero]
  rw [if_neg (by omega : ¬(0 ≤ y ∧ y ≤ 99)), if_pos]
  · simp
  · exact ⟨by omega, by exact_mod_cast hd2⟩

/-- Character-level shape of the day-first rendering of an in-range date with a
four-digit year: two digit characters per component, hyphen-separated, carrying the
component values. -/
theorem format_valid_data {y : Int} {m d : Nat}
    (hy1 : 1000 ≤ y) (hy2 : y ≤ 9999) (hm : m < 12) (hd : d < 100) :
    ∃ a b c1 c2 e1 e2 e3 e4,
      (formatDateToDDMMYYYY (some ⟨y, m, d⟩)).data =
        [a, b, '-', c1, c2, '-', e1, e2, e3, e4] ∧
      isDigitChar a = true ∧ isDigitChar b = true ∧
      isDigitChar c1 = true ∧ isDigitChar c2 = true ∧
      isDigitChar e1 = true ∧ isDigitChar e2 = true ∧
      isDigitChar e3 = true ∧ isDigitChar e4 = true ∧
      digitsToNat [a, b] = d ∧ digitsToNat [c1, c2] = m + 1 ∧
      digitsToNat [e1, e2, e3, e4] = y.toNat := by
  obtain ⟨a, b, hab, ha, hb, hvab⟩ := pad_two_digits hd
  obtain ⟨c1, c2, hcd, hc1, hc2, hvcd⟩ := pad_two_digits (show m + 1 < 100 by omega)
  obtain ⟨e1, e2, e3, e4, hef, he1, he2, he3, he4, hvef⟩ := year_four_digits hy1 hy2
  refine ⟨a, b, c1, c2, e1, e2, e3, e4, ?_, ha, hb, hc1, hc2, he1, he2, he3, he4,
    hvab, hvcd, hvef⟩
  show (pad d ++ "-" ++ pad (m + 1) ++ "-" ++ intToString y).data = _
  rw [String.data_append, String.data_append, String.data_append, String.data_append,
    hab, hcd, hef]
  rfl

/-- Parsing the day-first rendering of an in-range date recovers it exactly. -/
theorem parseToDate_format_valid {y : Int} {m d : Nat}
    (hy1 : 1000 ≤ y) (hy2 : y ≤ 9999) (hm : m < 12) (hd1 : 1 ≤ d)
    (hd2 : d ≤ daysInMonth y m) :
    parseToDate (formatDateToDDMMYYYY (some ⟨y, m, d⟩)) = some ⟨y, m, d⟩ := by
  have hd100 : d < 100 := by have := daysInMonth_le_31 y m; omega
  obtain ⟨a, b, c1, c2, e1, e2, e3, e4, hdata, ha, hb, hc1, hc2, he1, he2, he3, he4,
    hvab, hvcd, hvef⟩ := format_valid_data hy1 hy2 hm hd100
  have hne : ¬(formatDateToDDMMYYYY (some ⟨y, m, d⟩) = "") := by
    intro h
    rw [h] at hdata
    simp at hdata
  have htest : ddmmyyyyTest (formatDateToDDMMYYYY (some ⟨y, m, d⟩)) = true := by
    simp only [ddmmyyyyTest]
    rw [hdata]
    simp [ha, hb, hc1, hc2, he1, he2, he3, he4]
  have hsplit : splitDash (formatDateToDDMMYYYY (some ⟨y, m, d⟩)).data =
      [[a, b], [c1, c2], [e1, e2, e3, e4]] := by
    rw [hdata]
    rw [show ([a, b, '-', c1, c2, '-', e1, e2, e3, e4] : List Char) =
        [a, b] ++ '-' :: ([c1, c2] ++ '-' :: [e1, e2, e3, e4]) from rfl]
    rw [splitDash_append _ (by
        intro x hx
        simp at hx
        rcases hx with rfl | rfl
        · exact digit_ne_dash ha
        · exact digit_ne_dash hb),
      splitDash_append _ (by
        intro x hx
        simp at hx
        rcases hx with rfl | rfl
        · exact digit_ne_dash hc1
        · exact digit_ne_dash hc2),
      splitDash_no_dash (by
        intro x hx
        simp at hx
        rcases hx with rfl | rfl | rfl | rfl
        · exact digit_ne_dash he1
        · exact digit_ne_dash he2
        · exact digit_ne_dash he3
        · exact digit_ne_dash he4)]
  have hjs1 : jsNumber [a, b] = some ((d : Nat) : Int) := by
    rw [jsNumber, if_pos (by simp [ha, hb]), hvab]
  have hjs2 : jsNumber [c1, c2] = some (((m + 1 : Nat)) : Int) := by
    rw [jsNumber, if_pos (by simp [hc1, hc2]), hvcd]
  have hjs3 : jsNumber [e1, e2, e3, e4] = some ((y.toNat : Nat) : Int) := by
    rw [jsNumber, if_pos (by simp [he1, he2, he3, he4]), hvef]
  have hcast1 : ((y.toNat : Nat) : Int) = y := by omega
  have hcast2 : (((m + 1 : Nat)) : Int) - 1 = (m : Int) := by push_cast; ring
  simp only [parseToDate, if_neg hne, htest, if_true, hsplit, List.map_cons,
    List.map_nil, hjs1, hjs2, hjs3]
  rw [hcast1, hcast2]
  exact congrArg some (jsDate_of_valid (show (99 : Int) < y by omega) hm hd1 hd2)

theorem splitDash_format_list {a b c1 c2 e1 e2 e3 e4 : Char}
    (ha : isDigitChar a = true) (hb : isDigitChar b = true)
    (hc1 : isDigitChar c1 = true) (hc2 : isDigitChar c2 = true)
    (he1 : isDigitChar e1 = true) (he2 : isDigitChar e2 = true)
    (he3 : isDigitChar e3 = true) (he4 : isDigitChar e4 = true) :
    splitDash [a, b, '-', c1, c2, '-', e1, e2, e3, e4] =
      [[a, b], [c1, c2], [e1, e2, e3, e4]] := by
  rw [show ([a, b, '-', c1, c2, '-', e1, e2, e3, e4] : List Char) =
      [a, b] ++ '-' :: ([c1, c2] ++ '-' :: [e1, e2, e3, e4]) from rfl]
  rw [splitDash_append _ (by
      intro x hx
      simp at hx
      rcases hx with rfl | rfl
      · exact digit_ne_dash ha
      · exact digit_ne_dash hb),
    splitDash_append _ (by
      intro x hx
      simp at hx
      rcases hx with rfl | rfl
      · exact digit_ne_dash hc1
      · exact digit_ne_dash hc2),
    splitDash_no_dash (by
      intro x hx
      simp at hx
      rcases hx with rfl | rfl | rfl | rfl
      · exact digit_ne_dash he1
      · exact digit_ne_dash he2
      · exact digit_ne_dash he3
      · exact digit_ne_dash he4)]

/-- Parsing the year-first rendering (`ddmmyyyyToISO` of the day-first form) of an
in-range date also recovers it exactly. -/
theorem parseToDate_iso_format_valid {y : Int} {m d : Nat}
    (hy1 : 1000 ≤ y) (hy2 : y ≤ 9999) (hm : m < 12) (hd1 : 1 ≤ d)
    (hd2 : d ≤ daysInMonth y m) :
    parseToDate (ddmmyyyyToISO (formatDateToDDMMYYYY (some ⟨y, m, d⟩))) =
      some ⟨y, m, d⟩ := by
  have hd100 : d < 100 := by have := daysInMonth_le_31 y m; omega
  obtain ⟨a, b, c1, c2, e1, e2, e3, e4, hdata, ha, hb, hc1, hc2, he1, he2, he3, he4,
    hvab, hvcd, hvef⟩ := format_valid_data hy1 hy2 hm hd100
  have hne : ¬(formatDateToDDMMYYYY (some ⟨y, m, d⟩) = "") := by
    intro h
    rw [h] at hdata
    simp at hdata
  have hiso : ddmmyyyyToISO (formatDateToDDMMYYYY (some ⟨y, m, d⟩)) =
      ⟨[e1, e2, e3, e4, '-', c1, c2, '-', a, b]⟩ := by
    rw [ddmmyyyyToISO, if_neg hne, hdata,
      splitDash_format_list ha hb hc1 hc2 he1 he2 he3 he4]
    rfl
  rw [hiso]
  have hne2 : ¬((⟨[e1, e2, e3, e4, '-', c1, c2, '-', a, b]⟩ : String) = "") := by
    intro h
    have : ([e1, e2, e3, e4, '-', c1, c2, '-', a, b] : List Char) = [] :=
      congrArg String.data h
    simp at this
  have he3dash : (e3 == '-') = false := beq_eq_false_iff_ne.mpr (digit_ne_dash he3)
  have htest : ddmmyyyyTest ⟨[e1, e2, e3, e4, '-', c1, c2, '-', a, b]⟩ = false := by
    simp [ddmmyyyyTest, he3dash]
  have hisotest : isoTest ⟨[e1, e2, e3, e4, '-', c1, c2, '-', a, b]⟩ = true := by
    simp [isoTest, ha, hb, hc1, hc2, he1, he2, he3, he4]
  have htake : takeUntilT ([e1, e2, e3, e4, '-', c1, c2, '-', a, b] : List Char) =
      [e1, e2, e3, e4, '-', c1, c2, '-', a, b] := by
    rw [takeUntilT, List.takeWhile_eq_self_iff.mpr]
    intro x hx
    simp only [List.mem_cons, List.not_mem_nil, or_false] at hx
    rcases hx with rfl | rfl | rfl | rfl | rfl | rfl | rfl | rfl | rfl | rfl <;>
      first
        | (rw [bne_iff_ne]; first
            | exact digit_ne_T he1
            | exact digit_ne_T he2
            | exact digit_ne_T he3
            | exact digit_ne_T he4
            | exact digit_ne_T hc1
            | exact digit_ne_T hc2
            | exact digit_ne_T ha
            | exact digit_ne_T hb)
        | decide
  have hsplit2 : splitDash ([e1, e2, e3, e4, '-', c1, c2, '-', a, b] : List Char) =
      [[e1, e2, e3, e4], [c1, c2], [a, b]] := by
    rw [show ([e1, e2, e3, e4, '-', c1, c2, '-', a, b] : List Char) =
        [e1, e2, e3, e4] ++ '-' :: ([c1, c2] ++ '-' :: [a, b]) from rfl]
    rw [splitDash_append _ (by
        intro x hx
        simp at hx
        rcases hx with rfl | rfl | rfl | rfl
        · exact digit_ne_dash he1
        · exact digit_ne_dash he2
        · exact digit_ne_dash he3
        · exact digit_ne_dash he4),
      splitDash_append _ (by
        intro x hx
        simp at hx
        rcases hx with rfl | rfl
        · exact digit_ne_dash hc1
        · exact digit_ne_dash hc2),
      splitDash_no_dash (by
        intro x hx
        simp at hx
        rcases hx with rfl | rfl
        · exact digit_ne_dash ha
        · exact digit_ne_dash hb)]
  have hjs1 : jsNumber [a, b] = some ((d : Nat) : Int) := by
    rw [jsNumber, if_pos (by simp [ha, hb]), hvab]
  have hjs2 : jsNumber [c1, c2] = some (((m + 1 : Nat)) : Int) := by
    rw [jsNumber, if_pos (by simp [hc1, hc2]), hvcd]
  have hjs3 : jsNumber [e1, e2, e3, e4] = some ((y.toNat : Nat) : Int) := by
    rw [jsNumber, if_pos (by simp [he1, he2, he3, he4]), hvef]
  have hcast1 : ((y.toNat : Nat) : Int) = y := by omega
  have hcast2 : (((m + 1 : Nat)) : Int) - 1 = (m : Int) := by push_cast; ring
  simp only [parseToDate, if_neg hne2, htest, Bool.false_eq_true, if_false, hisotest,
    if_true]
  rw [htake, hsplit2]
  simp only [List.map_cons, List.map_nil, hjs1, hjs2, hjs3]
  rw [hcast1, hcast2]
  exact congrArg some (jsDate_of_valid (show (99 : Int) < y by omega) hm hd1 hd2)

/-! ### Materializer lemmas -/

theorem recurringShouldAdd_day_le {today : CalDate} {c : RecurringConfig}
    (h : recurringShouldAdd today c = true) : c.dayOfMonth ≤ today.day := by
  rcases hlp : c.lastProcessedDate with _ | s
  · simp only [recurringShouldAdd, hlp] at h
    exact of_decide_eq_true h
  · rcases hps : parseToDate s with _ | ld
    · simp only [recurringShouldAdd, hlp, hps] at h
      exact of_decide_eq_true h
    · simp only [recurringShouldAdd, hlp, hps, Bool.and_eq_true] at h
      exact of_decide_eq_true h.2

theorem recurringShouldAdd_false_same_month {today : CalDate} {c : RecurringConfig}
    {s : String} {ld : CalDate} (hlp : c.lastProcessedDate = some s)
    (hparse : parseToDate s = some ld) (hm : ld.month = today.month)
    (hy : ld.year = today.year) :
    recurringShouldAdd today c = false := by
  simp only [recurringShouldAdd, hlp, hparse]
  simp [hm, hy]

theorem processOneConfig_none_inv {today : CalDate} {i : String}
    {c c' : RecurringConfig} (h : processOneConfig today i c = (c', none)) :
    c' = c := by
  rw [processOneConfig] at h
  by_cases hact : c.active = true
  · rw [if_neg (by simp [hact])] at h
    by_cases hdue : recurringShouldAdd today c = true
    · rw [if_pos hdue] at h
      simp at h
    · rw [if_neg hdue] at h
      exact (Prod.mk.injEq _ _ _ _ ▸ h).1.symm
  · rw [if_pos (by simp [hact])] at h
    exact (Prod.mk.injEq _ _ _ _ ▸ h).1.symm

theorem processOneConfig_none_any_id {today : CalDate} {i : String}
    {c c₀ : RecurringConfig} (h : processOneConfig today i c = (c₀, none))
    (i' : String) : processOneConfig today i' c = (c, none) := by
  rw [processOneConfig] at h ⊢
  by_cases hact : c.active = true
  · rw [if_neg (by simp [hact])] at h ⊢
    by_cases hdue : recurringShouldAdd today c = true
    · rw [if_pos hdue] at h
      simp at h
    · rw [if_neg hdue]
  · rw [if_pos (by simp [hact])]

theorem processOneConfig_some_inv {today : CalDate} {i : String}
    {c c' : RecurringConfig} {tx : Transaction}
    (h : processOneConfig today i c = (c', some tx)) :
    c.active = true ∧ recurringShouldAdd today c = true ∧
      tx.date = formatDateToDDMMYYYY
        (some (jsDate today.year (today.month : Int) (c.dayOfMonth : Int))) ∧
      c' = { c with lastProcessedDate := some tx.date } := by
  rw [processOneConfig] at h
  by_cases hact : c.active = true
  · rw [if_neg (by simp [hact])] at h
    by_cases hdue : recurringShouldAdd today c = true
    · rw [if_pos hdue] at h
      have h1 := (Prod.mk.injEq _ _ _ _ ▸ h).1
      have h2 := Option.some.inj (Prod.mk.injEq _ _ _ _ ▸ h).2
      refine ⟨hact, hdue, ?_, ?_⟩
      · rw [← h2]
      · rw [← h1, ← h2]
    · rw [if_neg hdue] at h
      simp at h
  · rw [if_pos (by simp [hact])] at h
    simp at h

/-- After a run stamps a definition in today's month, a later run in the same
calendar month leaves that definition alone: the stamped `lastProcessedDate`
round-trips through the date layer to today's (month, year), so the due test fails. -/
theorem processOneConfig_stamped_skip {today today' : CalDate} {i i' : String}
    {c c' : RecurringConfig} {tx : Transaction}
    (hv : isValidToday today) (hday : 1 ≤ c.dayOfMonth)
    (hm : today'.month = today.month) (hy : today'.year = today.year)
    (h : processOneConfig today i c = (c', some tx)) :
    processOneConfig today' i' c' = (c', none) := by
  obtain ⟨hy1, hy2, hm12, _, hdle⟩ := hv
  obtain ⟨hact, hdue, hdate, hc'⟩ := processOneConfig_some_inv h
  have hdaysle : c.dayOfMonth ≤ daysInMonth today.year today.month :=
    le_trans (recurringShouldAdd_day_le hdue) hdle
  have hjs : jsDate today.year (today.month : Int) (c.dayOfMonth : Int) =
      ⟨today.year, today.month, c.dayOfMonth⟩ :=
    jsDate_of_valid (show (99 : Int) < today.year by omega) hm12 hday hdaysle
  have hparse : parseToDate tx.date = some ⟨today.year, today.month, c.dayOfMonth⟩ := by
    rw [hdate, hjs]
    exact parseToDate_format_valid hy1 hy2 hm12 hday hdaysle
  have hskip : recurringShouldAdd today' c' = false := by
    refine recurringShouldAdd_false_same_month ?_ hparse hm.symm hy.symm
    rw [hc']
  rw [processOneConfig, if_neg (by rw [hc']; simp [hact]), if_neg (by simp [hskip])]

theorem processRecAux_zero {today : CalDate} {ids : Nat → String} :
    ∀ (rec : List RecurringConfig) (k : Nat) (txs : List Transaction)
      (cfgs : List RecurringConfig),
      processRecAux today ids k rec = (txs, cfgs, 0) → txs = [] ∧ cfgs = rec := by
  intro rec
  induction rec with
  | nil =>
    intro k txs cfgs h
    simp only [processRecAux, Prod.mk.injEq] at h
    exact ⟨h.1.symm, h.2.1.symm⟩
  | cons config rest ih =>
    intro k txs cfgs h
    rcases hp : processOneConfig today (ids k) config with ⟨cfg, o⟩
    cases o with
    | none =>
      have hc : cfg = config := processOneConfig_none_inv hp
      rcases hr : processRecAux today ids k rest with ⟨t, c, a⟩
      simp only [processRecAux, hp, hr, Prod.mk.injEq] at h
      obtain ⟨h1, h2, h3⟩ := h
      obtain ⟨ht, hcs⟩ := ih k t c (by rw [hr, h3])
      refine ⟨by rw [← h1, ht], ?_⟩
      rw [← h2, hc, hcs]
    | some tx =>
      rcases hr : processRecAux today ids (k + 1) rest with ⟨t, c, a⟩
      simp only [processRecAux, hp, hr, Prod.mk.injEq] at h
      exact absurd h.2.2 (by omega)

theorem processRecAux_rerun {today : CalDate} (ids ids' : Nat → String)
    (hv : isValidToday today) :
    ∀ (rec : List RecurringConfig), (∀ c ∈ rec, 1 ≤ c.dayOfMonth) →
      ∀ (k k' : Nat),
        processRecAux today ids' k' (processRecAux today ids k rec).2.1 =
          ([], (processRecAux today ids k rec).2.1, 0) := by
  intro rec
  induction rec with
  | nil =>
    intro _ k k'
    rfl
  | cons config rest ih =>
    intro hdays k k'
    rcases hp : processOneConfig today (ids k) config with ⟨cfg, o⟩
    cases o with
    | none =>
      have hc : cfg = config := processOneConfig_none_inv hp
      subst hc
      rcases hr : processRecAux today ids k rest with ⟨t, c, a⟩
      have hone : processOneConfig today (ids' k') cfg = (cfg, none) :=
        processOneConfig_none_any_id hp _
      have hihc := ih (fun x hx => hdays x (by simp [hx])) k k'
      rw [hr] at hihc
      simp only [processRecAux, hp, hr, hone, hihc]
    | some tx =>
      rcases hr : processRecAux today ids (k + 1) rest with ⟨t, c, a⟩
      have hone : processOneConfig today (ids' k') cfg = (cfg, none) :=
        processOneConfig_stamped_skip hv (hdays config (by simp)) rfl rfl hp
      have hihc := ih (fun x hx => hdays x (by simp [hx])) (k + 1) k'
      rw [hr] at hihc
      simp only [processRecAux, hp, hr, hone, hihc]

/-! ### Claim theorems -/

/-- C1. One-per-month guarantee of the Recurrence Materializer: once a run
materializes a transaction for a definition, any later run whose date lies in the
same calendar (year, month) leaves that definition alone, so each active definition
yields at most one appended transaction per month; and concretely, for a definition
with `dayOfMonth = 15`, active and never processed, a run on 2024-03-20 appends
exactly the transaction dated `15-03-2024` and stamps `lastProcessedDate`, a run on
2024-03-25 appends nothing, a run on 2024-04-10 appends nothing (day 10 < 15), and a
run on 2024-04-16 appends exactly one more, dated `15-04-2024`. -/
theorem recurrence_one_per_month :
    (∀ (today today' : CalDate) (i i' : String) (c c' : RecurringConfig)
       (tx : Transaction),
        isValidToday today → 1 ≤ c.dayOfMonth →
        today'.month = today.month → today'.year = today.year →
        processOneConfig today i c = (c', some tx) →
        processOneConfig today' i' c' = (c', none)) ∧
    (let r1 := processRecurringTransactions [] [rentConfig] ⟨2024, 2, 20⟩
       (fun _ => "t1")
     let r2 := processRecurringTransactions r1.updatedTransactions r1.updatedRecurring
       ⟨2024, 2, 25⟩ (fun _ => "t2")
     let r3 := processRecurringTransactions r2.updatedTransactions r2.updatedRecurring
       ⟨2024, 3, 10⟩ (fun _ => "t3")
     let r4 := processRecurringTransactions r3.updatedTransactions r3.updatedRecurring
       ⟨2024, 3, 16⟩ (fun _ => "t4")
     r1 = ⟨[{ id := "t1", date := "15-03-2024", amount := 100,
              type := TransactionType.EXPENSE, category := "Housing",
              description := "Rent (recurring)", isRecurring := true }],
           [{ rentConfig with lastProcessedDate := some "15-03-2024" }], 1⟩ ∧
     r2 = ⟨r1.updatedTransactions, r1.updatedRecurring, 0⟩ ∧
     r3 = ⟨r2.updatedTransactions, r2.updatedRecurring, 0⟩ ∧
     r4 = ⟨[{ id := "t1", date := "15-03-2024", amount := 100,
              type := TransactionType.EXPENSE, category := "Housing",
              description := "Rent (recurring)", isRecurring := true },
            { id := "t4", date := "15-04-2024", amount := 100,
              type := TransactionType.EXPENSE, category := "Housing",
              description := "Rent (recurring)", isRecurring := true }],
           [{ rentConfig with lastProcessedDate := some "15-04-2024" }], 1⟩) :=
  ⟨fun _ _ _ _ _ _ _ hv hday hm hy h =>
    processOneConfig_stamped_skip hv hday hm hy h, by decide⟩

/-- Witness for C1: the general clause applied to the concrete definition stamped on
2024-03-20 and re-run on 2024-03-25. -/
theorem recurrence_one_per_month_witness :
    processOneConfig ⟨2024, 2, 25⟩ "w2"
        { rentConfig with lastProcessedDate := some "15-03-2024" } =
      ({ rentConfig with lastProcessedDate := some "15-03-2024" }, none) :=
  recurrence_one_per_month.1 ⟨2024, 2, 20⟩ ⟨2024, 2, 25⟩ "w1" "w2" rentConfig
    { rentConfig with lastProcessedDate := some "15-03-2024" }
    { id := "w1", date := "15-03-2024", amount := 100,
      type := TransactionType.EXPENSE, category := "Housing",
      description := "Rent (recurring)", isRecurring := true }
    (by decide) (by decide) rfl rfl (by decide)

/-- C2. Idempotent materialization: a zero added count means the returned ledger and
definition list are exactly the inputs, and a second invocation in the same calendar
month (same `today`, any id stream) adds nothing and returns its inputs unchanged. -/
theorem materializer_idempotent :
    (∀ (transactions : List Transaction) (recurring : List RecurringConfig)
       (today : CalDate) (ids : Nat → String),
        (processRecurringTransactions transactions recurring today ids).addedCount = 0 →
        processRecurringTransactions transactions recurring today ids =
          ⟨transactions, recurring, 0⟩) ∧
    (∀ (transactions : List Transaction) (recurring : List RecurringConfig)
       (today : CalDate) (ids ids' : Nat → String),
        isValidToday today → (∀ c ∈ recurring, 1 ≤ c.dayOfMonth) →
        processRecurringTransactions
            (processRecurringTransactions transactions recurring today ids).updatedTransactions
            (processRecurringTransactions transactions recurring today ids).updatedRecurring
            today ids' =
          ⟨(processRecurringTransactions transactions recurring today ids).updatedTransactions,
           (processRecurringTransactions transactions recurring today ids).updatedRecurring,
           0⟩) := by
  constructor
  · intro txs rec today ids h
    rcases hr : processRecAux today ids 0 rec with ⟨n, c, a⟩
    simp only [processRecurringTransactions, hr] at h ⊢
    obtain ⟨hn, hc⟩ := processRecAux_zero rec 0 n c (by rw [hr, h])
    rw [hn, hc, h]
    simp
  · intro txs rec today ids ids' hv hdays
    rcases hr : processRecAux today ids 0 rec with ⟨n, c, a⟩
    have hrr := processRecAux_rerun ids ids' hv rec hdays 0 0
    rw [hr] at hrr
    simp only [processRecurringTransactions, hr, hrr]
    simp

/-- Witness for C2: the second-run clause at the concrete definition and date of the
C1 scenario. -/
theorem materializer_idempotent_witness :
    processRecurringTransactions
        (processRecurringTransactions [] [rentConfig] ⟨2024, 2, 20⟩
          (fun _ => "w1")).updatedTransactions
        (processRecurringTransactions [] [rentConfig] ⟨2024, 2, 20⟩
          (fun _ => "w1")).updatedRecurring
        ⟨2024, 2, 20⟩ (fun _ => "w2") =
      ⟨(processRecurringTransactions [] [rentConfig] ⟨2024, 2, 20⟩
          (fun _ => "w1")).updatedTransactions,
       (processRecurringTransactions [] [rentConfig] ⟨2024, 2, 20⟩
          (fun _ => "w1")).updatedRecurring, 0⟩ :=
  materializer_idempotent.2 [] [rentConfig] ⟨2024, 2, 20⟩ (fun _ => "w1")
    (fun _ => "w2") (by decide) (by decide)

theorem recurringShouldAdd_false_of_day {today : CalDate} {c : RecurringConfig}
    (h : today.day < c.dayOfMonth) : recurringShouldAdd today c = false := by
  rcases hlp : c.lastProcessedDate with _ | s
  · simp only [recurringShouldAdd, hlp]
    exact decide_eq_false (by omega)
  · rcases hps : parseToDate s with _ | ld
    · simp only [recurringShouldAdd, hlp, hps]
      exact decide_eq_false (by omega)
    · simp only [recurringShouldAdd, hlp, hps]
      rw [decide_eq_false (show ¬c.dayOfMonth ≤ today.day by omega)]
      simp

theorem processOneConfig_skip_of_day {today : CalDate} {c : RecurringConfig}
    (i : String) (h : today.day < c.dayOfMonth) :
    processOneConfig today i c = (c, none) := by
  rw [processOneConfig]
  by_cases hact : c.active = true
  · rw [if_neg (by simp [hact]),
      if_neg (by simp [recurringShouldAdd_false_of_day h])]
  · rw [if_pos (by simp [hact])]

theorem processRecAux_all_skip {today : CalDate} (ids : Nat → String) :
    ∀ (rec : List RecurringConfig) (k : Nat),
      (∀ c ∈ rec, ∀ i, processOneConfig today i c = (c, none)) →
      processRecAux today ids k rec = ([], rec, 0) := by
  intro rec
  induction rec with
  | nil => intro k _; rfl
  | cons config rest ih =>
    intro k hall
    have h1 := hall config (by simp) (ids k)
    have h2 := ih k (fun c hc i => hall c (by simp [hc]) i)
    simp only [processRecAux, h1, h2]

/-- C9. Short-month suppression: when a definition's nominal day exceeds the length
of today's month, today's day-of-month (at most the month's length) can never reach
it, so the definition is never due that month — no transaction is emitted and the
rolled-over date `(year, month, dayOfMonth)` is never constructed; a whole run over
such definitions returns its inputs with a zero count. -/
theorem short_month_suppression :
    (∀ (today : CalDate) (i : String) (c : RecurringConfig),
        today.day ≤ daysInMonth today.year today.month →
        daysInMonth today.year today.month < c.dayOfMonth →
        processOneConfig today i c = (c, none)) ∧
    (∀ (transactions : List Transaction) (recurring : List RecurringConfig)
       (today : CalDate) (ids : Nat → String),
        today.day ≤ daysInMonth today.year today.month →
        (∀ c ∈ recurring, daysInMonth today.year today.month < c.dayOfMonth) →
        processRecurringTransactions transactions recurring today ids =
          ⟨transactions, recurring, 0⟩) := by
  constructor
  · intro today i c hday htall
    exact processOneConfig_skip_of_day i (show today.day < c.dayOfMonth by omega)
  · intro txs rec today ids hday htall
    have h := processRecAux_all_skip ids rec 0
      (fun c hc i => processOneConfig_skip_of_day i
        (show today.day < c.dayOfMonth by have := htall c hc; omega))
    simp only [processRecurringTransactions, h]
    simp

/-- Witness for C9: `dayOfMonth = 31` on 2024-04-30, the last day of a 30-day
month. -/
theorem short_month_suppression_witness :
    processOneConfig ⟨2024, 3, 30⟩ "w" { rentConfig with dayOfMonth := 31 } =
      ({ rentConfig with dayOfMonth := 31 }, none) :=
  short_month_suppression.1 ⟨2024, 3, 30⟩ "w" { rentConfig with dayOfMonth := 31 }
    (by decide) (by decide)

/-- C8 counterexample: two invocations agreeing on the ledger, the definitions and
the calendar date but drawing different `generateId()` values produce different
outputs, so the output is not a function of (ledger, definitions, date) alone. -/
theorem materializer_determinism_cex :
    processRecurringTransactions [] [rentConfig] ⟨2024, 2, 20⟩ (fun _ => "a") ≠
      processRecurringTransactions [] [rentConfig] ⟨2024, 2, 20⟩ (fun _ => "b") := by
  decide

theorem processOneConfig_due_eq {today : CalDate} {c : RecurringConfig} (i : String)
    (hact : c.active = true) (hdue : recurringShouldAdd today c = true) :
    processOneConfig today i c =
      ({ c with lastProcessedDate := some (formatDateToDDMMYYYY
          (some (jsDate today.year (today.month : Int) (c.dayOfMonth : Int)))) },
       some { id := i
              date := formatDateToDDMMYYYY
                (some (jsDate today.year (today.month : Int) (c.dayOfMonth : Int)))
              amount := c.amount
              type := c.type
              category := c.category
              description := c.description ++ " (" ++ recurringMarker ++ ")"
              isRecurring := true }) := by
  rw [processOneConfig, if_neg (by simp [hact]), if_pos hdue]

theorem processOneConfig_not_due {today : CalDate} {c : RecurringConfig} (i : String)
    (hdue : recurringShouldAdd today c = false) :
    processOneConfig today i c = (c, none) := by
  rw [processOneConfig]
  by_cases hact : c.active = true
  · rw [if_neg (by simp [hact]), if_neg (by simp [hdue])]
  · rw [if_pos (by simp [hact])]

theorem processOneConfig_inactive {today : CalDate} {c : RecurringConfig} (i : String)
    (hact : ¬c.active = true) : processOneConfig today i c = (c, none) := by
  rw [processOneConfig, if_pos (by simp [hact])]

theorem processOneConfig_ids (today : CalDate) (i i' : String) (c : RecurringConfig) :
    (processOneConfig today i c = (c, none) ∧ processOneConfig today i' c = (c, none)) ∨
    (∃ c₁ tx tx', processOneConfig today i c = (c₁, some tx) ∧
        processOneConfig today i' c = (c₁, some tx') ∧ eraseId tx = eraseId tx') := by
  by_cases hact : c.active = true
  · by_cases hdue : recurringShouldAdd today c = true
    · right
      exact ⟨_, _, _, processOneConfig_due_eq i hact hdue,
        processOneConfig_due_eq i' hact hdue, rfl⟩
    · left
      exact ⟨processOneConfig_not_due i (by simpa using hdue),
        processOneConfig_not_due i' (by simpa using hdue)⟩
  · left
    exact ⟨processOneConfig_inactive i hact, processOneConfig_inactive i' hact⟩

theorem processRecAux_ids (today : CalDate) (ids ids' : Nat → String) :
    ∀ (rec : List RecurringConfig) (k k' : Nat),
      (processRecAux today ids k rec).1.map eraseId =
        (processRecAux today ids' k' rec).1.map eraseId ∧
      (processRecAux today ids k rec).2.1 = (processRecAux today ids' k' rec).2.1 ∧
      (processRecAux today ids k rec).2.2 = (processRecAux today ids' k' rec).2.2 := by
  intro rec
  induction rec with
  | nil => intro k k'; exact ⟨rfl, rfl, rfl⟩
  | cons config rest ih =>
    intro k k'
    rcases processOneConfig_ids today (ids k) (ids' k') config with
      ⟨h1, h2⟩ | ⟨c₁, tx, tx', h1, h2, he⟩
    · rcases hr : processRecAux today ids k rest with ⟨t, c, a⟩
      rcases hr' : processRecAux today ids' k' rest with ⟨t', cc, a'⟩
      have hih := ih k k'
      rw [hr, hr'] at hih
      simp only [Prod.fst, Prod.snd] at hih
      obtain ⟨ht, hc, ha⟩ := hih
      subst hc
      subst ha
      simp only [processRecAux, h1, h2, hr, hr']
      exact ⟨ht, trivial, trivial⟩
    · rcases hr : processRecAux today ids (k + 1) rest with ⟨t, c, a⟩
      rcases hr' : processRecAux today ids' (k' + 1) rest with ⟨t', cc, a'⟩
      have hih := ih (k + 1) (k' + 1)
      rw [hr, hr'] at hih
      simp only [Prod.fst, Prod.snd] at hih
      obtain ⟨ht, hc, ha⟩ := hih
      subst hc
      subst ha
      simp only [processRecAux, h1, h2, hr, hr', List.map_cons]
      exact ⟨by rw [he, ht], trivial, trivial⟩

/-- C8 amended: with the two ambient effects (the `new Date()` clock read and the
`Math.random()`-based `generateId()` stream) made explicit parameters, the
materializer is a pure function of (ledger, definitions, today, ids); moreover the
id stream influences nothing but the `id` fields of the appended transactions — the
updated definitions, the added count, and every other transaction field agree across
any two id streams. -/
theorem materializer_determinism_amended :
    ∀ (transactions : List Transaction) (recurring : List RecurringConfig)
      (today : CalDate) (ids ids' : Nat → String),
      (processRecurringTransactions transactions recurring today ids).updatedTransactions.map
          eraseId =
        (processRecurringTransactions transactions recurring today ids').updatedTransactions.map
          eraseId ∧
      (processRecurringTransactions transactions recurring today ids).updatedRecurring =
        (processRecurringTransactions transactions recurring today ids').updatedRecurring ∧
      (processRecurringTransactions transactions recurring today ids).addedCount =
        (processRecurringTransactions transactions recurring today ids').addedCount := by
  intro txs rec today ids ids'
  have h := processRecAux_ids today ids ids' rec 0 0
  rcases hr : processRecAux today ids 0 rec with ⟨t, c, a⟩
  rcases hr' : processRecAux today ids' 0 rec with ⟨t', cc, a'⟩
  rw [hr, hr'] at h
  simp only [processRecurringTransactions, hr, hr']
  refine ⟨?_, h.2.1, h.2.2⟩
  simp only [List.map_append]
  rw [h.1]

/-- C3. Date round-trip law: for every calendar date the fixed-width encodings can
carry (in-range day and month, four-digit year), parsing the day-first rendering and
parsing the year-first rendering both recover the date exactly. -/
theorem date_round_trip :
    ∀ (y : Int) (m d : Nat), 1000 ≤ y → y ≤ 9999 → m < 12 → 1 ≤ d →
      d ≤ daysInMonth y m →
      parseToDate (formatDateToDDMMYYYY (some ⟨y, m, d⟩)) = some ⟨y, m, d⟩ ∧
      parseToDate (ddmmyyyyToISO (formatDateToDDMMYYYY (some ⟨y, m, d⟩))) =
        some ⟨y, m, d⟩ :=
  fun _ _ _ h1 h2 h3 h4 h5 =>
    ⟨parseToDate_format_valid h1 h2 h3 h4 h5,
     parseToDate_iso_format_valid h1 h2 h3 h4 h5⟩

/-- Witness for C3: the round trip at 2024-03-15. -/
theorem date_round_trip_witness :
    parseToDate (formatDateToDDMMYYYY (some ⟨2024, 2, 15⟩)) = some ⟨2024, 2, 15⟩ ∧
    parseToDate (ddmmyyyyToISO (formatDateToDDMMYYYY (some ⟨2024, 2, 15⟩))) =
      some ⟨2024, 2, 15⟩ :=
  date_round_trip 2024 2 15 (by norm_num) (by norm_num) (by norm_num) (by norm_num)
    (by decide)

/-- C4. Average-cost invariance under SELL: for every position state, a SELL event
leaves the running average cost untouched, lowers the quantity by the sold quantity,
and lowers invested capital by the sold quantity times the average cost (the cost
basis, not the sale proceeds); concretely, BUY 10 @ $100 then SELL 4 @ $150 yields
average cost $100, quantity 6, invested capital $600. -/
theorem sell_preserves_avg_cost :
    (∀ (rate : ℚ) (g : GroupedAsset) (id sym : String) (nm : Option String)
       (aty : AssetType) (q p : ℚ) (cur : Currency) (dt : String),
        (applyTxToGroup rate g
            ⟨id, sym, nm, InvType.SELL, aty, q, p, cur, dt⟩).avgBuyPrice =
          g.avgBuyPrice ∧
        (applyTxToGroup rate g
            ⟨id, sym, nm, InvType.SELL, aty, q, p, cur, dt⟩).quantity =
          g.quantity - q ∧
        (applyTxToGroup rate g
            ⟨id, sym, nm, InvType.SELL, aty, q, p, cur, dt⟩).totalInvested =
          g.totalInvested - q * g.avgBuyPrice) ∧
    portfolio [buyTenAt100, sellFourAt150] (365 / 100) (fun _ => none) =
      [{ symbol := "AAPL", name := none, assetType := AssetType.STOCK, quantity := 6,
         avgBuyPrice := 100, totalInvested := 600, currentPrice := none,
         transactions := [buyTenAt100, sellFourAt150] }] := by
  constructor
  · intro rate g id sym nm aty q p cur dt
    simp [applyTxToGroup]
  · simp only [portfolio,
      show stableSortBy (fun a b => decide (dateKey a.date ≤ dateKey b.date))
          [buyTenAt100, sellFourAt150] = [buyTenAt100, sellFourAt150] from rfl]
    simp only [List.foldl_cons, List.foldl_nil, List.map_cons, List.map_nil]
    simp only [insertTxIntoGroups, emptyGroupFor, applyTxToGroup, normalizePriceUSD,
      attachPrice, buyTenAt100, sellFourAt150]
    norm_num
    simp [attachPrice]

/-- C5. Volume-weighted average cost on BUY: for every position state with positive
resulting quantity, a BUY of `q` units at normalized price `p` (the event's price
as-is in USD, divided by the exchange rate in ILS) moves the average cost to
`(quantity * avgCost + q * p) / (quantity + q)`, raises the quantity by `q` and the
invested capital by `q * p`; concretely, BUY 10 @ $100 then BUY 10 @ $200 yields
quantity 20 and average cost $150. -/
theorem buy_weighted_avg_cost :
    (∀ (rate : ℚ) (g : GroupedAsset) (id sym : String) (nm : Option String)
       (aty : AssetType) (q p : ℚ) (cur : Currency) (dt : String),
        0 < g.quantity + q →
        (applyTxToGroup rate g
            ⟨id, sym, nm, InvType.BUY, aty, q, p, cur, dt⟩).avgBuyPrice =
          (g.quantity * g.avgBuyPrice +
              q * (if cur = Currency.USD then p else p / rate)) / (g.quantity + q) ∧
        (applyTxToGroup rate g
            ⟨id, sym, nm, InvType.BUY, aty, q, p, cur, dt⟩).quantity =
          g.quantity + q ∧
        (applyTxToGroup rate g
            ⟨id, sym, nm, InvType.BUY, aty, q, p, cur, dt⟩).totalInvested =
          g.totalInvested + q * (if cur = Currency.USD then p else p / rate)) ∧
    portfolio [buyTenAt100, buyTenAt200] (365 / 100) (fun _ => none) =
      [{ symbol := "AAPL", name := none, assetType := AssetType.STOCK, quantity := 20,
         avgBuyPrice := 150, totalInvested := 3000, currentPrice := none,
         transactions := [buyTenAt100, buyTenAt200] }] := by
  constructor
  · intro rate g id sym nm aty q p cur dt h
    simp [applyTxToGroup, normalizePriceUSD, h]
  · simp only [portfolio,
      show stableSortBy (fun a b => decide (dateKey a.date ≤ dateKey b.date))
          [buyTenAt100, buyTenAt200] = [buyTenAt100, buyTenAt200] from rfl]
    simp only [List.foldl_cons, List.foldl_nil, List.map_cons, List.map_nil]
    simp only [insertTxIntoGroups, emptyGroupFor, applyTxToGroup, normalizePriceUSD,
      attachPrice, buyTenAt100, buyTenAt200]
    norm_num
    simp [attachPrice]

/-- Witness for C5: the BUY step applied to the held position (10 units at average
cost $100) with a further BUY of 10 units at $200. -/
theorem buy_weighted_avg_cost_witness :
    (0 : ℚ) < 10 + 10 ∧
    ((applyTxToGroup (365 / 100)
        { symbol := "AAPL", name := none, assetType := AssetType.STOCK, quantity := 10,
          avgBuyPrice := 100, totalInvested := 1000, currentPrice := none,
          transactions := [buyTenAt100] }
        ⟨"i3", "AAPL", none, InvType.BUY, AssetType.STOCK, 10, 200, Currency.USD,
          "02-01-2024"⟩).avgBuyPrice = (10 * 100 + 10 * 200) / (10 + 10) ∧
     (applyTxToGroup (365 / 100)
        { symbol := "AAPL", name := none, assetType := AssetType.STOCK, quantity := 10,
          avgBuyPrice := 100, totalInvested := 1000, currentPrice := none,
          transactions := [buyTenAt100] }
        ⟨"i3", "AAPL", none, InvType.BUY, AssetType.STOCK, 10, 200, Currency.USD,
          "02-01-2024"⟩).quantity = 10 + 10 ∧
     (applyTxToGroup (365 / 100)
        { symbol := "AAPL", name := none, assetType := AssetType.STOCK, quantity := 10,
          avgBuyPrice := 100, totalInvested := 1000, currentPrice := none,
          transactions := [buyTenAt100] }
        ⟨"i3", "AAPL", none, InvType.BUY, AssetType.STOCK, 10, 200, Currency.USD,
          "02-01-2024"⟩).totalInvested = 1000 + 10 * 200) :=
  ⟨by norm_num,
   buy_weighted_avg_cost.1 (365 / 100)
     { symbol := "AAPL", name := none, assetType := AssetType.STOCK, quantity := 10,
       avgBuyPrice := 100, totalInvested := 1000, currentPrice := none,
       transactions := [buyTenAt100] }
     "i3" "AAPL" none AssetType.STOCK 10 200 Currency.USD "02-01-2024" (by norm_num)⟩

/-- C6. Division guards: a SELL of exactly the held quantity zeroes the position
without touching the (still defined) average cost — the SELL branch never divides —
and the per-position return percentage is 0, not a division error, whenever the cost
basis `quantity * avgBuyPrice` is zero. (All model functions are total; nothing can
raise.) -/
theorem division_guards :
    (∀ (rate : ℚ) (g : GroupedAsset) (id sym : String) (nm : Option String)
       (aty : AssetType) (p : ℚ) (cur : Currency) (dt : String),
        (applyTxToGroup rate g
            ⟨id, sym, nm, InvType.SELL, aty, g.quantity, p, cur, dt⟩).quantity = 0 ∧
        (applyTxToGroup rate g
            ⟨id, sym, nm, InvType.SELL, aty, g.quantity, p, cur, dt⟩).avgBuyPrice =
          g.avgBuyPrice) ∧
    (∀ asset : GroupedAsset,
        asset.quantity * asset.avgBuyPrice = 0 → assetReturnPct asset = 0) := by
  constructor
  · intro rate g id sym nm aty p cur dt
    simp [applyTxToGroup]
  · intro asset h
    simp [assetReturnPct, h]

/-- Witness for C6: a position fully sold out (quantity 0, average cost $100) has a
zero cost basis and reports a 0% return. -/
theorem division_guards_witness :
    ((0 : ℚ) * 100 = 0) ∧
    assetReturnPct
        { symbol := "AAPL", name := none, assetType := AssetType.STOCK, quantity := 0,
          avgBuyPrice := 100, totalInvested := 0, currentPrice := some 150,
          transactions := [] } = 0 :=
  ⟨by norm_num,
   division_guards.2
     { symbol := "AAPL", name := none, assetType := AssetType.STOCK, quantity := 0,
       avgBuyPrice := 100, totalInvested := 0, currentPrice := some 150,
       transactions := [] } (by norm_num)⟩

/-- C7 counterexample: when the benchmark fetch returns the absence value while a
per-symbol series did load, the computation leaves the previously rendered chart in
place — the output series is the old nonempty one, not the empty series the claim
requires. -/
theorem benchmark_fail_closed_cex :
    generateChartDataStep [samplePoint] [buyTenAt100] ["AAPL"]
        (fun _ => some ⟨[100, 101], some [1, 2]⟩) none (365 / 100) ≠ [] := by
  simp [generateChartDataStep]

/-- C7 amended: a benchmark fetch that returns the absence value, or a payload with
no timestamp array, aborts the computation with the previous chart state untouched
(no partial data from the loaded per-symbol series is produced, but the old series
is not replaced by an empty one); a benchmark payload whose timestamp array is empty
produces the empty series. -/
theorem benchmark_fail_closed_amended :
    (∀ (prev : List HistoryPoint) (invs : List InvestmentTransaction)
       (syms : List String) (sdm : String → Option CandleData) (rate : ℚ),
        generateChartDataStep prev invs syms sdm none rate = prev) ∧
    (∀ (prev : List HistoryPoint) (invs : List InvestmentTransaction)
       (syms : List String) (sdm : String → Option CandleData) (rate : ℚ)
       (c : List ℚ),
        generateChartDataStep prev invs syms sdm (some ⟨c, none⟩) rate = prev) ∧
    (∀ (prev : List HistoryPoint) (invs : List InvestmentTransaction)
       (syms : List String) (sdm : String → Option CandleData) (rate : ℚ)
       (c : List ℚ),
        generateChartDataStep prev invs syms sdm (some ⟨c, some []⟩) rate = []) :=
  ⟨fun _ _ _ _ _ => rfl, fun _ _ _ _ _ _ => rfl, fun _ _ _ _ _ _ => rfl⟩

/-- C10 counterexample: with the empty label already present in the income list, the
add operation with a blank candidate returns silently (the blank-input guard fires
first) instead of reporting the `categoryExists` failure the claim requires for
every value whose trimmed label occurs in the targeted list. -/
theorem category_duplicate_add_cex :
    "" ∈ (CategoryData.mk [""] []).income ∧
    handleAdd ⟨[""], []⟩ TransactionType.INCOME "" ≠ AddResult.categoryExists := by
  decide

/-- C10 amended: for a candidate whose trimmed label is nonempty, the add operation
reports the named `categoryExists` failure and emits no update when the label
already occurs in the targeted list, and otherwise emits exactly the input with the
label appended at the end of the targeted list, the other list untouched. -/
theorem category_duplicate_add :
    ∀ (categories : CategoryData) (activeTab : TransactionType) (label : String),
      jsTrim label ≠ "" →
      (jsTrim label ∈ currentCategoryList categories activeTab →
        handleAdd categories activeTab label = AddResult.categoryExists) ∧
      (jsTrim label ∉ currentCategoryList categories activeTab →
        handleAdd categories activeTab label =
          AddResult.updated
            (if activeTab = TransactionType.INCOME then
              { categories with income := categories.income ++ [jsTrim label] }
            else
              { categories with expense := categories.expense ++ [jsTrim label] })) := by
  intro categories activeTab label hne
  constructor
  · intro hmem
    rw [handleAdd, if_neg hne, if_pos hmem]
  · intro hmem
    rw [handleAdd, if_neg hne, if_neg hmem]
    cases activeTab with
    | INCOME => simp [currentCategoryList]
    | EXPENSE => simp [currentCategoryList]

/-- Witness for C10: adding the already-present label `Food` to the expense list
reports the named failure. -/
theorem category_duplicate_add_witness :
    handleAdd ⟨["Salary"], ["Food"]⟩ TransactionType.EXPENSE "Food" =
      AddResult.categoryExists :=
  (category_duplicate_add ⟨["Salary"], ["Food"]⟩ TransactionType.EXPENSE "Food"
    (by decide)).1 (by decide)
